import Mathlib

/-
Verification development for the docsify-tools repository.

The repository contains two sidebar generators (a current one with
number-ordering name normalization and directory/file folding, and a
vestigial plain one in src/index.ts), plus a fork of api-documenter's
MarkdownDocumenter that renders an api-extractor item model to markdown
pages.

The embedding models JavaScript strings as Lean Strings and implements the
JavaScript string operations used by the source (split, join, replace,
regex tests, Number coercion, path.basename) as structurally recursive
functions over the underlying character lists, so that every definition is
kernel-computable on concrete inputs.
-/

namespace DocsifyTools

/-! ## Character-list string operations (JavaScript semantics) -/

/-- Split a character list at every occurrence of the separator character,
matching the behaviour of JavaScript String.prototype.split with a
single-character separator (an empty input yields one empty segment). -/
def chSplit (sep : Char) : List Char → List (List Char)
  | [] => [[]]
  | c :: r =>
    let rs := chSplit sep r
    if c == sep then [] :: rs
    else
      match rs with
      | [] => [[c]]
      | h :: t => (c :: h) :: t

/-- JavaScript String.prototype.split with a one-character separator. -/
def strSplit (sep : Char) (s : String) : List String :=
  (chSplit sep s.data).map String.mk

/-- JavaScript Array.prototype.join. -/
def jsJoin (sep : String) : List String → String
  | [] => ""
  | [x] => x
  | x :: r => x ++ sep ++ jsJoin sep r

/-- Replace every space character by the three characters of the percent
encoding, as done by the source with path.replace over spaces. -/
def encChars : List Char → List Char
  | [] => []
  | c :: r => if c == ' ' then '%' :: '2' :: '0' :: encChars r else c :: encChars r

/-- JavaScript s.replace over all spaces with the percent encoding. -/
def encSpaces (s : String) : String := String.mk (encChars s.data)

/-- Does the first list occur at the start of the second list? -/
def chHasPre : List Char → List Char → Bool
  | [], _ => true
  | _ :: _, [] => false
  | p :: ps, c :: cs => p == c && chHasPre ps cs

/-- Does the first list occur anywhere inside the second list? -/
def chHasSub (pat : List Char) : List Char → Bool
  | [] => pat.isEmpty
  | c :: r => chHasPre pat (c :: r) || chHasSub pat r

/-- Substring test on strings. -/
def strHasSub (pat s : String) : Bool := chHasSub pat.data s.data

/-- Does the pattern occur at the start of the string? -/
def strStartsWith (pat s : String) : Bool := chHasPre pat.data s.data

/-- Does the pattern occur at the end of the list? -/
def chEndsWith (pat l : List Char) : Bool := chHasPre pat.reverse l.reverse

/-- The ignore filter of the sidebar generators, a regular expression that
matches names containing a node_modules segment, names starting with a
dot, and names containing the sidebar or docsify markers. -/
def ignoresTest (s : String) : Bool :=
  strHasSub "node_modules" s || strStartsWith "." s ||
    strHasSub "_sidebar" s || strHasSub "_docsify" s

/-- The documentation-file test of the sidebar generators.  The source
regular expression has an unescaped dot, so it matches any character
(except a line terminator) followed by the letters m and d at the end of
the name, not only a literal dot. -/
def isDocTest (s : String) : Bool :=
  match s.data.reverse with
  | 'd' :: 'm' :: c :: _ =>
      !(c == '\n' || c == '\r' || c == '\u2028' || c == '\u2029')
  | _ => false

/-! ## JavaScript Number coercion (only NaN-ness is observable here) -/

/-- Characters trimmed by JavaScript when coercing a string to a number. -/
def jsWhitespaceB (c : Char) : Bool :=
  c == ' ' || c == '\t' || c == '\n' || c == '\r' || c == '\x0b' ||
    c == '\x0c' || c == '\u00A0' || c == '\uFEFF' || c == '\u2028' || c == '\u2029'

/-- Trim leading and trailing JavaScript whitespace from a character list. -/
def trimChars (l : List Char) : List Char :=
  ((l.dropWhile jsWhitespaceB).reverse.dropWhile jsWhitespaceB).reverse

/-- Trim leading and trailing JavaScript whitespace from a string. -/
def trimStr (s : String) : String := String.mk (trimChars s.data)

/-- Drop one optional leading sign character. -/
def dropSign : List Char → List Char
  | '+' :: r => r
  | '-' :: r => r
  | l => l

/-- Is the character an ASCII hexadecimal digit? -/
def isHexDigitCh (c : Char) : Bool :=
  c.isDigit || ('a' ≤ c && c ≤ 'f') || ('A' ≤ c && c ≤ 'F')

/-- Recognize an optional decimal exponent part of a JavaScript numeric
literal (empty, or an e or E followed by an optionally signed nonempty
digit sequence). -/
def expOkCh : List Char → Bool
  | [] => true
  | c :: r =>
    (c == 'e' || c == 'E') &&
      (let r2 := dropSign r
       !r2.isEmpty && r2.all (fun d => d.isDigit))

/-- Recognize an unsigned decimal mantissa with optional fraction and
exponent, per the JavaScript string numeric literal grammar. -/
def mantissaOkCh (l : List Char) : Bool :=
  let ip := l.takeWhile (fun d => d.isDigit)
  let rest := l.drop ip.length
  match rest with
  | '.' :: r2 =>
    let fp := r2.takeWhile (fun d => d.isDigit)
    (!ip.isEmpty || !fp.isEmpty) && expOkCh (r2.drop fp.length)
  | _ => !ip.isEmpty && expOkCh rest

/-- Does JavaScript Number(s) produce a value other than NaN?  The empty
or all-whitespace string coerces to zero; otherwise the trimmed string
must be a hexadecimal, octal or binary literal, an optionally signed
Infinity, or an optionally signed decimal literal. -/
def jsIsNumeric (s : String) : Bool :=
  match trimChars s.data with
  | [] => true
  | '0' :: 'x' :: r => !r.isEmpty && r.all isHexDigitCh
  | '0' :: 'X' :: r => !r.isEmpty && r.all isHexDigitCh
  | '0' :: 'o' :: r => !r.isEmpty && r.all (fun c => '0' ≤ c && c ≤ '7')
  | '0' :: 'O' :: r => !r.isEmpty && r.all (fun c => '0' ≤ c && c ≤ '7')
  | '0' :: 'b' :: r => !r.isEmpty && r.all (fun c => c == '0' || c == '1')
  | '0' :: 'B' :: r => !r.isEmpty && r.all (fun c => c == '0' || c == '1')
  | t =>
    let u := dropSign t
    u == "Infinity".data || mantissaOkCh u

/-! ## Node path.basename with the markdown extension argument -/

/-- Node's path.basename(name, ext) for ext equal to the markdown
extension: take the part after the last slash (ignoring trailing
slashes), then remove the extension when it is a proper suffix of that
part; when the whole part equals the extension nothing is removed. -/
def basenameMd (s : String) : String :=
  let noTrail := s.data.reverse.dropWhile (fun c => c == '/')
  let bn := (noTrail.takeWhile (fun c => !(c == '/'))).reverse
  if chEndsWith ".md".data bn && !(bn == ".md".data) then
    String.mk (bn.take (bn.length - 3))
  else String.mk bn

/-! ## Name normalization (niceName) -/

/-- The sidebar generator's niceName: split the raw name on dashes; when
the first segment coerces to a number (is not NaN), drop it and rejoin the
remaining segments with spaces, otherwise return the name unchanged. -/
def niceName (name : String) : String :=
  let splitName := strSplit '-' name
  if jsIsNumeric (splitName.headD "") then jsJoin " " (splitName.drop 1)
  else name

/-! ## The sidebar tree -/

/-- A tree entry: a leaf is a filesystem file entry (the children field of
the source record is absent), a node is a directory entry carrying its
children list (possibly empty, which only ever happens at the root). -/
inductive Entry where
  | leaf (name path : String)
  | node (name path : String) (children : List Entry)

/-- The name field of an entry. -/
def Entry.nameOf : Entry → String
  | .leaf n _ => n
  | .node n _ _ => n

/-- The path field of an entry. -/
def Entry.pathOf : Entry → String
  | .leaf _ p => p
  | .node _ p _ => p

/-- Is the entry a leaf (no children field)? -/
def Entry.isLeafB : Entry → Bool
  | .leaf _ _ => true
  | .node _ _ _ => false

/-- The set of leaf-child names of a children list (the fileNames set of
the folding renderer). -/
def leafNames (cs : List Entry) : List String :=
  (cs.filter (fun c => c.isLeafB)).map Entry.nameOf

/-- The set of directory-child names suffixed with the markdown extension
(the dirNames set of the folding renderer). -/
def dirMdNames (cs : List Entry) : List String :=
  (cs.filter (fun c => !c.isLeafB)).map (fun c => c.nameOf ++ ".md")

/-- The child filter of the folding renderer: a child is kept unless its
name is simultaneously in the fileNames set and in the dirNames set. -/
def keptB (cs : List Entry) (c : Entry) : Bool :=
  !((leafNames cs).contains c.nameOf) || !((dirMdNames cs).contains c.nameOf)

/-- The linkDir flag the folding renderer passes to a child: true when
the child's name suffixed with the markdown extension is in the dirNames
set and also in the fileNames set. -/
def linkFlagB (cs : List Entry) (c : Entry) : Bool :=
  (dirMdNames cs).contains (c.nameOf ++ ".md") &&
    (leafNames cs).contains (c.nameOf ++ ".md")

/-- The single line emitted for a leaf (also used as the linked heading of
a folded directory): a bullet with the normalized basename as link text
and the space-encoded path as target. -/
def leafLine (n p : String) : String :=
  "- [" ++ niceName (basenameMd n) ++ "](" ++ encSpaces p ++ ")"

/-- Split rendered content into lines, indent each line by two spaces and
rejoin, exactly as the renderers do with split, map and join. -/
def indentAll (s : String) : String :=
  jsJoin "\n" ((strSplit '\n' s).map (fun l => "  " ++ l))

/-- The heading line of a container in the folding renderer: nothing for
the unnamed root, a linked heading when the linkDir flag is set, a plain
bullet with the normalized name otherwise. -/
def nodeHead (n p : String) (linkDir : Bool) : String :=
  if n == "" then ""
  else if linkDir then leafLine n p ++ "\n"
  else "- " ++ niceName n ++ "\n"

mutual
/-- The folding sidebar renderer (renderToMd of the current generator):
leaves render as one bullet line; containers render a heading followed by
the two-space-indented renderings of their kept children. -/
def renderToMd : Entry → Bool → String
  | .leaf n p, _ => leafLine n p
  | .node n p cs, linkDir =>
    nodeHead n p linkDir ++ indentAll (jsJoin "\n" (renderKept cs cs))
/-- Render the children that survive the folding filter, passing each its
linkDir flag; the second argument is the full sibling list used for the
fileNames and dirNames sets. -/
def renderKept : List Entry → List Entry → List String
  | [], _ => []
  | c :: rest, sibs =>
    if keptB sibs c then renderToMd c (linkFlagB sibs c) :: renderKept rest sibs
    else renderKept rest sibs
end

/-! ## The tree builder (current, folding generator) -/

/-- A filesystem subtree as seen through readdirSync and statSync: a file
entry or a directory entry with its listing in directory-scan order. -/
inductive FSEntry where
  | file (name : String)
  | dir (name : String) (entries : List FSEntry)

/-- The name of a filesystem entry. -/
def FSEntry.nameOf : FSEntry → String
  | .file n => n
  | .dir n _ => n

mutual
/-- The children accumulated by the current generator's buildTree over a
directory listing: ignored names are skipped, files are kept as leaves
when they pass the documentation-file test, and directories are kept only
when their own built subtree has at least one child. -/
def buildChildren : List FSEntry → String → List Entry
  | [], _ => []
  | e :: rest, tPath => buildEntry e tPath ++ buildChildren rest tPath
/-- The contribution of one directory entry to the children list: nothing
or a single leaf or container. -/
def buildEntry : FSEntry → String → List Entry
  | .file n, tPath =>
    if ignoresTest n then []
    else if isDocTest n then [.leaf n (tPath ++ "/" ++ n)] else []
  | .dir n es, tPath =>
    if ignoresTest n then []
    else if (buildChildren es (tPath ++ "/" ++ n)).length > 0 then
      [.node n (tPath ++ "/" ++ n) (buildChildren es (tPath ++ "/" ++ n))]
    else []
end

/-- The current generator's buildTree: always returns a container node
carrying the children built from the listing (the root is built with the
default empty name and path). -/
def buildTree (entries : List FSEntry) (name : String := "") (tPath : String := "") : Entry :=
  .node name tPath (buildChildren entries tPath)

/-! ## The vestigial plain generator (src/index.ts) -/

mutual
/-- The plain variant's directory walk.  The source calls statSync on the
logical path (root-relative, starting with a slash) rather than on the
real location, so the directory test is modelled by an oracle over that
logical path which may also fail as statSync does; a directory entry is
pushed unconditionally, with no emptiness check. -/
def buildChildrenPlain (stat : String → Except String Bool) :
    List FSEntry → String → Except String (List Entry)
  | [], _ => pure []
  | e :: rest, tPath => do
    let hd ← buildEntryPlain stat e tPath
    let tl ← buildChildrenPlain stat rest tPath
    pure (hd ++ tl)
/-- One entry of the plain variant's walk. -/
def buildEntryPlain (stat : String → Except String Bool) :
    FSEntry → String → Except String (List Entry)
  | e, tPath =>
    if ignoresTest e.nameOf then pure []
    else do
      let isDir ← stat (tPath ++ "/" ++ e.nameOf)
      if isDir then
        match e with
        | .dir n es => do
          let sub ← buildChildrenPlain stat es (tPath ++ "/" ++ n)
          pure [Entry.node n (tPath ++ "/" ++ n) sub]
        | .file _ => Except.error "ENOTDIR"
      else if isDocTest e.nameOf then pure [Entry.leaf e.nameOf (tPath ++ "/" ++ e.nameOf)]
      else pure []
end

/-- The plain variant's buildTree. -/
def buildTreePlain (stat : String → Except String Bool) (entries : List FSEntry)
    (name : String := "") (tPath : String := "") : Except String Entry := do
  let cs ← buildChildrenPlain stat entries tPath
  pure (Entry.node name tPath cs)

mutual
/-- The plain variant's renderToMd: the leaf label is everything before
the first dot of the name, containers render all children (no folding)
under a raw-name heading. -/
def renderToMdPlain : Entry → String
  | .leaf n p => "- [" ++ (strSplit '.' n).headD "" ++ "](" ++ encSpaces p ++ ")"
  | .node n _p cs =>
    (if n == "" then "" else "- " ++ n ++ "\n") ++
      indentAll (jsJoin "\n" (renderListPlain cs))
/-- Render every child of a container in the plain variant. -/
def renderListPlain : List Entry → List String
  | [] => []
  | c :: r => renderToMdPlain c :: renderListPlain r
end

/-! ## Structural predicates used by the claims -/

mutual
/-- Does an entry, viewed as a child of some container, satisfy the
no-empty-container invariant: every container at or below it has a
nonempty children list? -/
def childOkB : Entry → Bool
  | .leaf _ _ => true
  | .node _ _ cs => !cs.isEmpty && childListOkB cs
/-- The no-empty-container invariant over a children list. -/
def childListOkB : List Entry → Bool
  | [] => true
  | c :: r => childOkB c && childListOkB r
end

mutual
/-- Does the listing contain no entry that would qualify as a
documentation leaf, at any depth reachable by the builder? -/
def noDocsList : List FSEntry → Bool
  | [] => true
  | e :: r => noDocsEntry e && noDocsList r
/-- The no-qualifying-documents test for one entry. -/
def noDocsEntry : FSEntry → Bool
  | .file n => ignoresTest n || !isDocTest n
  | .dir n es => ignoresTest n || noDocsList es
end

/-! ## The markdown documenter: item model -/

/-- The kinds of the api-extractor item model (string enumeration in the
upstream library). -/
inductive ApiItemKind where
  | CallSignature | Class | Constructor | ConstructSignature | EntryPoint
  | Enum | EnumMember | Function | IndexSignature | Interface | Method
  | MethodSignature | Model | Namespace | None | Package | Property
  | PropertySignature | TypeAlias | Variable
deriving DecidableEq

/-- The string value of a kind, as concatenated into error messages. -/
def kindName : ApiItemKind → String
  | .CallSignature => "CallSignature"
  | .Class => "Class"
  | .Constructor => "Constructor"
  | .ConstructSignature => "ConstructSignature"
  | .EntryPoint => "EntryPoint"
  | .Enum => "Enum"
  | .EnumMember => "EnumMember"
  | .Function => "Function"
  | .IndexSignature => "IndexSignature"
  | .Interface => "Interface"
  | .Method => "Method"
  | .MethodSignature => "MethodSignature"
  | .Model => "Model"
  | .Namespace => "Namespace"
  | .None => "None"
  | .Package => "Package"
  | .Property => "Property"
  | .PropertySignature => "PropertySignature"
  | .TypeAlias => "TypeAlias"
  | .Variable => "Variable"

/-- Kinds carrying the parameter-list mixin (overload index, parameters). -/
def hasParamList (k : ApiItemKind) : Bool :=
  k == .CallSignature || k == .Constructor || k == .ConstructSignature ||
    k == .Function || k == .Method || k == .MethodSignature

/-- Kinds carrying the return-type mixin. -/
def hasReturnType (k : ApiItemKind) : Bool :=
  k == .CallSignature || k == .ConstructSignature || k == .Function ||
    k == .Method || k == .MethodSignature

/-- Kinds of members of a property-item class in the upstream model. -/
def isPropertyItemKind (k : ApiItemKind) : Bool :=
  k == .Property || k == .PropertySignature

/-- The documenter's internalKinds list: kinds whose pages are rendered
but never written to a file of their own. -/
def internalKinds : List ApiItemKind :=
  [.Method, .MethodSignature, .Property, .PropertySignature]

/-- The closed set of kinds the documenter's dispatch switches handle. -/
def supportedKinds : List ApiItemKind :=
  [.Package, .Namespace, .Class, .Interface, .Enum, .Function, .Method,
   .MethodSignature, .Property, .PropertySignature, .TypeAlias, .Variable]

/-- Member kinds handled by the interface/class member loop. -/
def ifaceMemberKinds : List ApiItemKind :=
  [.Method, .MethodSignature, .Property, .PropertySignature]

/-- Member kinds handled by the package/namespace member loop. -/
def pkgMemberKinds : List ApiItemKind :=
  [.Class, .Enum, .Interface, .Namespace, .Function, .TypeAlias, .Variable]

/-- Kinds at which the scoped-name walk stops (package level and above). -/
def isPkgBoundary (k : ApiItemKind) : Bool :=
  k == .Model || k == .Package || k == .EntryPoint

/-- Output document nodes, modelling the tsdoc and custom doc nodes the
documenter constructs (the markdown emitter that serializes them lives
outside this repository's sources). -/
inductive DocNode where
  | heading (title : String) (level : Nat)
  | text (s : String)
  | codeSpan (code : String)
  | fencedCode (code lang : String)
  | linkTag (linkText urlDestination : String)
  | emphasis (bold italic : Bool) (children : List DocNode)
  | para (children : List DocNode)
  | noteBox (children : List DocNode)
  | table (headerTitles : List String) (rows : List (List (List DocNode)))

/-- A table cell: a list of doc nodes. -/
abbrev Cell := List DocNode

/-- A table row: a list of cells. -/
abbrev Row := List Cell

/-- One output file: its path (relative to the output folder) and the doc
nodes of its page. -/
abbrev FileWrite := String × List DocNode

/-- The structured documentation comment of an item, holding only the
pieces the documenter inspects: summary section, remarks block,
deprecated block, returns block, and example custom blocks. -/
structure Tsdoc where
  summary : List DocNode
  remarks : Option (List DocNode)
  deprecated : Option (List DocNode)
  returnsBlock : Option (List DocNode)
  examples : List (List DocNode)

/-- One declared parameter: its name, the text of its type excerpt, and
the content of its tsdoc param block when present. -/
structure ParamInfo where
  name : String
  typeText : String
  doc : Option (List DocNode)

/-- The scalar data of one api item (fields of the various upstream item
classes and mixins that the documenter reads). -/
structure ApiInfo where
  kind : ApiItemKind
  displayName : String
  overloadIndex : Nat
  isBeta : Bool
  isStatic : Bool
  isEventProperty : Bool
  excerptText : String
  excerptWithModifiers : String
  propertyTypeText : String
  initializerText : String
  returnTypeText : String
  parameters : List ParamInfo
  tsdoc : Option Tsdoc

/-- An api item: its scalar data and its member items. -/
inductive ApiItem where
  | mk (info : ApiInfo) (members : List ApiItem)

/-- The scalar data of an item. -/
def ApiItem.info : ApiItem → ApiInfo
  | .mk i _ => i

/-- The members of an item. -/
def ApiItem.members : ApiItem → List ApiItem
  | .mk _ ms => ms

/-- The kind of an item. -/
def ApiItem.kind (it : ApiItem) : ApiItemKind := it.info.kind

/-- The display name of an item. -/
def ApiItem.displayName (it : ApiItem) : String := it.info.displayName

/-- A default scalar record used to build concrete items concisely. -/
def baseInfo (k : ApiItemKind) (n : String) : ApiInfo :=
  { kind := k, displayName := n, overloadIndex := 0, isBeta := false,
    isStatic := false, isEventProperty := false, excerptText := "",
    excerptWithModifiers := "", propertyTypeText := "", initializerText := "",
    returnTypeText := "", parameters := [], tsdoc := Option.none }

/-! ## Filename and link derivation -/

/-- JavaScript String.prototype.toLowerCase restricted to ASCII letters,
which is what the lowercased anchors of the documenter contain. -/
def toLowerJs (s : String) : String := String.mk (s.data.map Char.toLower)

/-- PackageName.getUnscopedName of the upstream library: for a scoped
package name the part after the first slash, otherwise the whole name. -/
def unscopedPackageName (s : String) : String :=
  if strStartsWith "@" s then
    match strSplit '/' s with
    | _ :: rest => if rest.isEmpty then s else jsJoin "/" rest
    | [] => s
  else s

/-- Posix path.dirname for the slash-separated relative filenames the
documenter derives. -/
def pathDirname (s : String) : String :=
  let parts := strSplit '/' s
  if parts.length ≤ 1 then "."
  else
    let d := jsJoin "/" parts.dropLast
    if d == "" then "/" else d

/-- Walk the remaining segments of two directory paths after removing
their common prefix: one parent-directory step per remaining source
segment, followed by the remaining target segments. -/
def relAux : List String → List String → String
  | [], ts => jsJoin "/" ts
  | fs, [] => jsJoin "/" (fs.map (fun _ => ".."))
  | a :: fs, b :: ts =>
    if a == b then relAux fs ts
    else jsJoin "/" ((a :: fs).map (fun _ => "..") ++ b :: ts)

/-- Posix path.relative over the documenter's clean relative filenames
(both arguments resolve against the same working directory, which
therefore cancels; dot and empty segments are discarded as resolution
does). -/
def pathRelative (f t : String) : String :=
  relAux ((strSplit '/' f).filter (fun x => !(x == "") && !(x == ".")))
    ((strSplit '/' t).filter (fun x => !(x == "") && !(x == ".")))

/-- One step of the documenter's filename fold over the hierarchy:
package-level container kinds contribute nothing, the package contributes
its unscoped name, anchor kinds (method and property kinds) append the
markdown extension, a hash and the lowercased display name, and every
other kind appends a slash and the qualified name, which carries an
underscore suffix for overloaded callables with positive overload index. -/
def hierStep (baseName : String) (it : ApiItem) : String :=
  let qualifiedName :=
    if hasParamList it.kind && decide (it.info.overloadIndex > 0) then
      it.displayName ++ "_" ++ Nat.repr it.info.overloadIndex
    else it.displayName
  match it.kind with
  | .Model => baseName
  | .EntryPoint => baseName
  | .Package => unscopedPackageName it.displayName
  | .Method => baseName ++ ".md#" ++ toLowerJs it.displayName
  | .MethodSignature => baseName ++ ".md#" ++ toLowerJs it.displayName
  | .Property => baseName ++ ".md#" ++ toLowerJs it.displayName
  | .PropertySignature => baseName ++ ".md#" ++ toLowerJs it.displayName
  | _ => baseName ++ "/" ++ qualifiedName

/-- The documenter's getFilenameForApiItem over an item's hierarchy list
(root first, the item itself last): fold the steps, then append the
markdown extension when no anchor hash was produced. -/
def getFilenameFor (hier : List ApiItem) : String :=
  let baseName := hier.foldl hierStep ""
  if baseName.data.contains '#' then baseName else baseName ++ ".md"

/-- The documenter's getLinkFilenameForApiItem: the relative path from
the directory of the source item's file to the target item's file. -/
def getLinkFilenameFor (toHier fromHier : List ApiItem) : String :=
  pathRelative (pathDirname (getFilenameFor fromHier)) (getFilenameFor toHier)

/-- getScopedNameWithinPackage of the upstream model: the display names
strictly below the innermost package-level ancestor, joined with dots. -/
def scopedNameFor (hier : List ApiItem) : String :=
  jsJoin "."
    (((hier.reverse.takeWhile (fun a => !isPkgBoundary a.kind)).reverse).map
      (fun a => a.displayName))

/-! ## Page fragments -/

/-- The breadcrumb rows after the Home link: one linked paragraph per
hierarchy item, with the model root and entry point elided. -/
def breadcrumbAux (pageHier : List ApiItem) (done : List ApiItem) :
    List ApiItem → List DocNode
  | [] => []
  | h :: rest =>
    (match h.kind with
     | .Model => []
     | .EntryPoint => []
     | _ => [DocNode.para [DocNode.text " > ",
              DocNode.linkTag h.displayName (getLinkFilenameFor (done ++ [h]) pageHier)]])
    ++ breadcrumbAux pageHier (done ++ [h]) rest

/-- The breadcrumb of a page: a Home link paragraph followed by one
linked paragraph per non-elided hierarchy item. -/
def breadcrumbNodes (hier : List ApiItem) : List DocNode :=
  DocNode.para [DocNode.linkTag "Home" "/"] :: breadcrumbAux hier [] hier

/-- Utilities.getConciseSignature of the documenter's helper module
(absent from the given sources; modelled from its use as the link text of
title cells): the display name, with a parenthesized parameter-name list
for parameter-list kinds. -/
def conciseSig (it : ApiItem) : String :=
  if hasParamList it.kind then
    it.displayName ++ "(" ++ jsJoin ", " (it.info.parameters.map (fun p => p.name)) ++ ")"
  else it.displayName

/-- A title cell: a paragraph holding a link tag whose text is the
concise signature and whose destination is the relative link from the
containing page to the member's file. -/
def titleCellFor (memberHier pageHier : List ApiItem) (m : ApiItem) : Cell :=
  [DocNode.para [DocNode.linkTag (conciseSig m) (getLinkFilenameFor memberHier pageHier)]]

/-- A description cell: an optional beta marker paragraph followed by the
summary section of the member's documentation comment. -/
def descCell (m : ApiItem) : Cell :=
  (if m.info.isBeta then
    [DocNode.para [DocNode.emphasis true true [DocNode.text "(BETA)"], DocNode.text " "]]
   else [])
  ++ (match m.info.tsdoc with
      | some d => d.summary
      | Option.none => [])

/-- A property-type cell: a code span with the property type excerpt for
property items, empty otherwise. -/
def propertyTypeCell (m : ApiItem) : Cell :=
  if isPropertyItemKind m.kind then [DocNode.para [DocNode.codeSpan m.info.propertyTypeText]]
  else []

/-- The beta warning note box. -/
def betaWarningNode : DocNode :=
  DocNode.noteBox [DocNode.para [DocNode.text
    ("This API is provided as a preview for developers and may change" ++
     " based on feedback that we receive.  Do not use this API in a production environment.")]]

/-- The parameter table and returns section of a function-like item. -/
def parameterTablesNodes (it : ApiItem) : List DocNode :=
  let rows : List Row := it.info.parameters.map (fun p =>
    [[DocNode.para [DocNode.text p.name]],
     [DocNode.para [DocNode.codeSpan p.typeText]],
     p.doc.getD []])
  (if rows.length > 0 then
    [DocNode.heading "Parameters" 4,
     DocNode.table ["Parameter", "Type", "Description"] rows]
   else [])
  ++ (if hasReturnType it.kind then
       [DocNode.para [DocNode.emphasis true false [DocNode.text "Returns:"]],
        DocNode.para [DocNode.codeSpan
          (let r := trimStr it.info.returnTypeText
           if r == "" then "(not declared)" else r)]]
       ++ (match it.info.tsdoc with
           | some d => d.returnsBlock.getD []
           | Option.none => [])
      else [])

/-- The enumeration members table of an enum item. -/
def enumTablesNodes (it : ApiItem) : List DocNode :=
  let rows : List Row := it.members.map (fun m =>
    [[DocNode.para [DocNode.text (conciseSig m)]],
     [DocNode.para [DocNode.codeSpan m.info.initializerText]],
     descCell m])
  if rows.length > 0 then
    [DocNode.heading "Enumeration Members" 1,
     DocNode.table ["Member", "Value", "Description"] rows]
  else []

/-- The example blocks section: a level-four heading per block, numbered
when there is more than one block. -/
def exampleSectionAux (total i : Nat) : List (List DocNode) → List DocNode
  | [] => []
  | b :: r =>
    DocNode.heading (if total > 1 then "Example " ++ Nat.repr i else "Example") 4
      :: (b ++ exampleSectionAux total (i + 1) r)

/-- All example blocks of an item's documentation comment. -/
def exampleSection (blocks : List (List DocNode)) : List DocNode :=
  exampleSectionAux blocks.length 1 blocks

/-- The non-table sections of a page body that precede the member tables:
optional beta warning, optional deprecation note box plus summary,
optional remarks, optional signature block. -/
def preTableNodes (i : ApiInfo) : List DocNode :=
  (if i.isBeta then [betaWarningNode] else [])
  ++ (match i.tsdoc with
      | some d =>
        (match d.deprecated with
         | some content =>
           [DocNode.noteBox (DocNode.para
              [DocNode.text "Warning: This API is now obsolete. "] :: content)]
         | Option.none => [])
        ++ d.summary
      | Option.none => [])
  ++ (match i.tsdoc with
      | some d =>
        (match d.remarks with
         | some content => DocNode.heading "Remarks" 4 :: content
         | Option.none => [])
      | Option.none => [])
  ++ (if i.excerptText == "" then []
      else
        [DocNode.para [DocNode.emphasis true false [DocNode.text "Signature:"]],
         DocNode.fencedCode i.excerptWithModifiers "typescript"])

/-- The example section of a page body. -/
def postTableNodes (i : ApiInfo) : List DocNode :=
  match i.tsdoc with
  | some d => exampleSection d.examples
  | Option.none => []

/-- The heading switch of the documenter: the heading node of a page body
or the unsupported-kind error. -/
def headNodeFor (hier : List ApiItem) (i : ApiInfo) : Except String DocNode :=
  let sn := scopedNameFor hier
  let baseLevel := if internalKinds.contains i.kind then 3 else 1
  match i.kind with
  | .Class => Except.ok (DocNode.heading (sn ++ " class") 1)
  | .Enum => Except.ok (DocNode.heading (sn ++ " enum") 1)
  | .Interface => Except.ok (DocNode.heading (sn ++ " interface") 1)
  | .Method => Except.ok (DocNode.heading i.displayName baseLevel)
  | .MethodSignature => Except.ok (DocNode.heading i.displayName baseLevel)
  | .Function => Except.ok (DocNode.heading (sn ++ " function") 1)
  | .Namespace => Except.ok (DocNode.heading (sn ++ " namespace") 1)
  | .Package => Except.ok (DocNode.heading (unscopedPackageName i.displayName ++ " package") 1)
  | .Property => Except.ok (DocNode.heading i.displayName 3)
  | .PropertySignature => Except.ok (DocNode.heading i.displayName 3)
  | .TypeAlias => Except.ok (DocNode.heading (sn ++ " type") 1)
  | .Variable => Except.ok (DocNode.heading (sn ++ " variable") 1)
  | k => Except.error ("Unsupported API item kind: " ++ kindName k)

/-- The file writes produced around one rendered page: the writes of the
nested pages followed by the page's own file, which is omitted for the
internal kinds (methods and properties). -/
def pageWrites (anc : List ApiItem) (it : ApiItem) (nodes : List DocNode)
    (ws : List FileWrite) : List FileWrite :=
  ws ++
    (if internalKinds.contains it.kind then []
     else [(getFilenameFor (anc ++ [it]), breadcrumbNodes (anc ++ [it]) ++ nodes)])

/-- The accumulator of the interface/class member loop: rows and inline
detail nodes for events, properties and methods. -/
structure IfaceAcc where
  evRows : List Row
  evInline : List DocNode
  propRows : List Row
  propInline : List DocNode
  methRows : List Row
  methInline : List DocNode

/-- The empty interface-loop accumulator. -/
def IfaceAcc.empty : IfaceAcc := ⟨[], [], [], [], [], []⟩

/-- Assemble the events, properties and methods sections from the loop
accumulator: for each nonempty table a heading, the table, and the
inline-rendered member details below it. -/
def assembleIface (acc : IfaceAcc) : List DocNode :=
  (if acc.evRows.length > 0 then
    DocNode.heading "Events" 1
      :: DocNode.table ["Property", "Type", "Description"] acc.evRows
      :: acc.evInline
   else [])
  ++ (if acc.propRows.length > 0 then
       DocNode.heading "Properties" 1
         :: DocNode.table ["Property", "Type", "Description"] acc.propRows
         :: acc.propInline
      else [])
  ++ (if acc.methRows.length > 0 then
       DocNode.heading "Methods" 1
         :: DocNode.table ["Method", "Description"] acc.methRows
         :: acc.methInline
      else [])

/-- The accumulator of the package/namespace member loop: one row list
per member table. -/
structure PkgAcc where
  classRows : List Row
  enumRows : List Row
  funcRows : List Row
  ifaceRows : List Row
  nsRows : List Row
  varRows : List Row
  typeRows : List Row

/-- The empty package-loop accumulator. -/
def PkgAcc.empty : PkgAcc := ⟨[], [], [], [], [], [], []⟩

/-- Assemble the member tables of a package or namespace page in the
fixed source order, omitting empty tables. -/
def assemblePkg (acc : PkgAcc) : List DocNode :=
  (if acc.classRows.length > 0 then
    [DocNode.heading "Classes" 1, DocNode.table ["Class", "Description"] acc.classRows]
   else [])
  ++ (if acc.enumRows.length > 0 then
       [DocNode.heading "Enumerations" 1,
        DocNode.table ["Enumeration", "Description"] acc.enumRows]
      else [])
  ++ (if acc.funcRows.length > 0 then
       [DocNode.heading "Functions" 1,
        DocNode.table ["Function", "Description"] acc.funcRows]
      else [])
  ++ (if acc.ifaceRows.length > 0 then
       [DocNode.heading "Interfaces" 1,
        DocNode.table ["Interface", "Description"] acc.ifaceRows]
      else [])
  ++ (if acc.nsRows.length > 0 then
       [DocNode.heading "Namespaces" 1,
        DocNode.table ["Namespace", "Description"] acc.nsRows]
      else [])
  ++ (if acc.varRows.length > 0 then
       [DocNode.heading "Variables" 1,
        DocNode.table ["Variable", "Description"] acc.varRows]
      else [])
  ++ (if acc.typeRows.length > 0 then
       [DocNode.heading "Type Aliases" 1,
        DocNode.table ["Type Alias", "Description"] acc.typeRows]
      else [])

mutual
/-- The documenter's writeApiItem over one item, given its ancestor list
(model root first): the heading switch (which rejects unsupported kinds),
the documentation sections, the kind-dispatched member tables (the class
kind is routed to the interface-table writer), and the example section;
also returns the file writes produced by nested member pages. -/
def writeApiItem (anc : List ApiItem) (it : ApiItem) :
    Except String (List DocNode × List FileWrite) :=
  match it with
  | .mk i ms => do
    let headNode ← headNodeFor (anc ++ [ApiItem.mk i ms]) i
    let (tableNodes, ws) ← (
      match i.kind with
      | .Class => do
        let (acc, ws) ← ifaceLoop anc (ApiItem.mk i ms) ms
        pure (assembleIface acc, ws)
      | .Interface => do
        let (acc, ws) ← ifaceLoop anc (ApiItem.mk i ms) ms
        pure (assembleIface acc, ws)
      | .Enum => pure (enumTablesNodes (ApiItem.mk i ms), [])
      | .Method => pure (parameterTablesNodes (ApiItem.mk i ms), [])
      | .MethodSignature => pure (parameterTablesNodes (ApiItem.mk i ms), [])
      | .Function => pure (parameterTablesNodes (ApiItem.mk i ms), [])
      | .Namespace => do
        let (acc, ws) ← pkgLoop (anc ++ [ApiItem.mk i ms]) (anc ++ [ApiItem.mk i ms]) ms
        pure (assemblePkg acc, ws)
      | .Package =>
        (match ms with
         | ep :: _ =>
           (match ep with
            | .mk epi epms => do
              let (acc, ws) ← pkgLoop (anc ++ [ApiItem.mk i ms])
                  (anc ++ [ApiItem.mk i ms, ApiItem.mk epi epms]) epms
              pure (assemblePkg acc, ws))
         | [] => Except.error "TypeError: no entry point")
      | .Property => pure ([], [])
      | .PropertySignature => pure ([], [])
      | .TypeAlias => pure ([], [])
      | .Variable => pure ([], [])
      | k => Except.error ("Unsupported API item kind: " ++ kindName k))
    pure (headNode :: (preTableNodes i ++ tableNodes ++ postTableNodes i), ws)
termination_by structural it
/-- The member loop of the interface-table writer (used for classes and
interfaces alike): method and property kinds contribute a table row, a
rendered member page (whose file write the internal-kind guard always
suppresses) and their inline details; every other member kind is skipped
silently. -/
def ifaceLoop (anc : List ApiItem) (container : ApiItem) (l : List ApiItem) :
    Except String (IfaceAcc × List FileWrite) :=
  match l with
  | [] => pure (IfaceAcc.empty, [])
  | m :: rest => do
    match m.kind with
    | .Method | .MethodSignature => do
      let (mNodes, mws) ← writeApiItem (anc ++ [container]) m
      let (acc, ws) ← ifaceLoop anc container rest
      let row := [titleCellFor (anc ++ [container, m]) (anc ++ [container]) m, descCell m]
      pure ({ acc with
                methRows := row :: acc.methRows,
                methInline := mNodes ++ acc.methInline },
            pageWrites (anc ++ [container]) m mNodes mws ++ ws)
    | .Property | .PropertySignature => do
      let (mNodes, mws) ← writeApiItem (anc ++ [container]) m
      let (acc, ws) ← ifaceLoop anc container rest
      let row := [titleCellFor (anc ++ [container, m]) (anc ++ [container]) m,
                  propertyTypeCell m, descCell m]
      if m.info.isEventProperty then
        pure ({ acc with
                  evRows := row :: acc.evRows,
                  evInline := mNodes ++ acc.evInline },
              pageWrites (anc ++ [container]) m mNodes mws ++ ws)
      else
        pure ({ acc with
                  propRows := row :: acc.propRows,
                  propInline := mNodes ++ acc.propInline },
              pageWrites (anc ++ [container]) m mNodes mws ++ ws)
    | _ => ifaceLoop anc container rest
termination_by structural l
/-- The member loop of the package/namespace table writer: the seven
handled member kinds contribute a table row and a written member page;
every other member kind is skipped silently. -/
def pkgLoop (contHier memberAnc : List ApiItem) (l : List ApiItem) :
    Except String (PkgAcc × List FileWrite) :=
  match l with
  | [] => pure (PkgAcc.empty, [])
  | m :: rest => do
    let row := [titleCellFor (memberAnc ++ [m]) contHier m, descCell m]
    match m.kind with
    | .Class => do
      let (mNodes, mws) ← writeApiItem memberAnc m
      let (acc, ws) ← pkgLoop contHier memberAnc rest
      pure ({ acc with classRows := row :: acc.classRows },
            pageWrites memberAnc m mNodes mws ++ ws)
    | .Enum => do
      let (mNodes, mws) ← writeApiItem memberAnc m
      let (acc, ws) ← pkgLoop contHier memberAnc rest
      pure ({ acc with enumRows := row :: acc.enumRows },
            pageWrites memberAnc m mNodes mws ++ ws)
    | .Interface => do
      let (mNodes, mws) ← writeApiItem memberAnc m
      let (acc, ws) ← pkgLoop contHier memberAnc rest
      pure ({ acc with ifaceRows := row :: acc.ifaceRows },
            pageWrites memberAnc m mNodes mws ++ ws)
    | .Namespace => do
      let (mNodes, mws) ← writeApiItem memberAnc m
      let (acc, ws) ← pkgLoop contHier memberAnc rest
      pure ({ acc with nsRows := row :: acc.nsRows },
            pageWrites memberAnc m mNodes mws ++ ws)
    | .Function => do
      let (mNodes, mws) ← writeApiItem memberAnc m
      let (acc, ws) ← pkgLoop contHier memberAnc rest
      pure ({ acc with funcRows := row :: acc.funcRows },
            pageWrites memberAnc m mNodes mws ++ ws)
    | .TypeAlias => do
      let (mNodes, mws) ← writeApiItem memberAnc m
      let (acc, ws) ← pkgLoop contHier memberAnc rest
      pure ({ acc with typeRows := row :: acc.typeRows },
            pageWrites memberAnc m mNodes mws ++ ws)
    | .Variable => do
      let (mNodes, mws) ← writeApiItem memberAnc m
      let (acc, ws) ← pkgLoop contHier memberAnc rest
      pure ({ acc with varRows := row :: acc.varRows },
            pageWrites memberAnc m mNodes mws ++ ws)
    | _ => pkgLoop contHier memberAnc rest
termination_by structural l
end

/-- The documenter's writeApiItemPage: render the item, then emit the
nested writes followed by the item's own file (breadcrumb plus body),
which the internal-kind guard suppresses for methods and properties. -/
def writeApiItemPage (anc : List ApiItem) (it : ApiItem) :
    Except String (List FileWrite) := do
  let (nodes, ws) ← writeApiItem anc it
  pure (pageWrites anc it nodes ws)

/-- Render one page per package of the model. -/
def genPackages (anc : List ApiItem) : List ApiItem → Except String (List FileWrite)
  | [] => pure []
  | p :: rest => do
    let ws ← writeApiItemPage anc p
    let rest2 ← genPackages anc rest
    pure (ws ++ rest2)

/-- generateFiles of the documenter: after clearing the output folder (a
filesystem effect outside the model), write one page tree per package of
the api model. -/
def generateFiles (apiModel : ApiItem) : Except String (List FileWrite) :=
  genPackages [apiModel] apiModel.members

/-! ## The claim-side label transformation and concrete fixtures -/

/-- The label transformation stated by the specification for sidebar leaf
lines: the name with one trailing markdown extension removed when
present. -/
def specStripMd (s : String) : String :=
  if chEndsWith ".md".data s.data then String.mk (s.data.take (s.data.length - 3)) else s

/-- The children of the folded directory of the folding scenario. -/
def c1ds : List Entry := [Entry.leaf "Y.md" "/X/Y.md"]

/-- The sibling list of the folding scenario: a leaf and a directory of
the same base name. -/
def c1cs : List Entry := [Entry.leaf "X.md" "/X.md", Entry.node "X" "/X" c1ds]

/-- A model root with the given packages. -/
def mkModel (pkgs : List ApiItem) : ApiItem := ApiItem.mk (baseInfo .Model "") pkgs

/-- A method item with the given overload index. -/
def mkMethod (n : String) (oi : Nat) : ApiItem :=
  ApiItem.mk { baseInfo .Method n with overloadIndex := oi, returnTypeText := "void" } []

/-- The class of the running documenter example. -/
def widgetCls (ms : List ApiItem) : ApiItem := ApiItem.mk (baseInfo .Class "Widget") ms

/-- The interface of the running documenter example, deliberately given
the same display name as the class so that the two renderings can be
compared member for member. -/
def widgetIface (ms : List ApiItem) : ApiItem := ApiItem.mk (baseInfo .Interface "Widget") ms

/-- An entry point wrapping the given members. -/
def mkEntryPoint (ms : List ApiItem) : ApiItem := ApiItem.mk (baseInfo .EntryPoint "") ms

/-- A package with one entry point holding the given members. -/
def mkPackage (n : String) (ms : List ApiItem) : ApiItem :=
  ApiItem.mk (baseInfo .Package n) [mkEntryPoint ms]

/-- A constructor item (a kind outside the documenter's supported set). -/
def ctorItem : ApiItem := ApiItem.mk (baseInfo .Constructor "(constructor)") []

/-- The hierarchy of the filename-derivation example: model, package,
entry point, class. -/
def c3hier : List ApiItem :=
  [mkModel [], ApiItem.mk (baseInfo .Package "acme") [], mkEntryPoint [],
   ApiItem.mk (baseInfo .Class "Widget") []]

/-- The api model of the silent-skip example: package acme holding a
class whose only member is a constructor. -/
def c5model : ApiItem := mkModel [mkPackage "acme" [widgetCls [ctorItem]]]

/-- The api model of the inline-rendering example: package acme holding a
class and an interface of the same name and member shape. -/
def c2model : ApiItem :=
  mkModel [mkPackage "acme" [widgetCls [mkMethod "render" 0]]]

/-- The ancestor list of the example class: model, package, entry point. -/
def c2anc : List ApiItem :=
  [mkModel [], ApiItem.mk (baseInfo .Package "acme") [], mkEntryPoint []]

/-- The ancestor list of the constructor of the silent-skip example. -/
def c5anc : List ApiItem :=
  [mkModel [], mkPackage "acme" [widgetCls [ctorItem]],
   mkEntryPoint [widgetCls [ctorItem]], widgetCls [ctorItem]]

/-! ## Helper lemmas -/

/-- Rebuilding a string from its characters is the identity. -/
theorem mk_data (s : String) : String.mk s.data = s := rfl

/-- takeWhile keeps a list all of whose elements satisfy the predicate. -/
theorem takeWhile_of_all {α} (p : α → Bool) :
    ∀ (l : List α), (∀ a ∈ l, p a = true) → l.takeWhile p = l
  | [], _ => rfl
  | a :: l, h => by
    have ha := h a (List.mem_cons_self a l)
    simp [List.takeWhile_cons, ha,
      takeWhile_of_all p l (fun b hb => h b (List.mem_cons_of_mem a hb))]

/-- dropWhile keeps a list none of whose elements satisfy the predicate. -/
theorem dropWhile_of_all_not {α} (p : α → Bool) :
    ∀ (l : List α), (∀ a ∈ l, p a = false) → l.dropWhile p = l
  | [], _ => rfl
  | a :: l, h => by
    simp [List.dropWhile_cons, h a (List.mem_cons_self a l)]

/-- Membership gives a positive contains test. -/
theorem contains_of_mem {α} [BEq α] [LawfulBEq α] {a : α} {l : List α}
    (h : a ∈ l) : l.contains a = true :=
  List.elem_eq_true_of_mem h

/-- A leaf in a children list puts its name into the fileNames set. -/
theorem mem_leafNames {cs : List Entry} {n p : String}
    (h : Entry.leaf n p ∈ cs) : (leafNames cs).contains n = true := by
  apply contains_of_mem
  unfold leafNames
  exact List.mem_map.mpr ⟨Entry.leaf n p, List.mem_filter.mpr ⟨h, rfl⟩, rfl⟩

/-- A container in a children list puts its suffixed name into the
dirNames set. -/
theorem mem_dirMdNames {cs : List Entry} {n p : String} {ds : List Entry}
    (h : Entry.node n p ds ∈ cs) : (dirMdNames cs).contains (n ++ ".md") = true := by
  apply contains_of_mem
  unfold dirMdNames
  exact List.mem_map.mpr ⟨Entry.node n p ds, List.mem_filter.mpr ⟨h, rfl⟩, rfl⟩

/-- The kept-children renderer is the filtered and flagged map the source
expresses with filter and map over the children. -/
theorem renderKept_eq (sibs : List Entry) :
    ∀ (l : List Entry),
      renderKept l sibs
        = (l.filter (keptB sibs)).map (fun c => renderToMd c (linkFlagB sibs c))
  | [] => rfl
  | c :: rest => by
    cases h : keptB sibs c <;>
      simp [renderKept, h, renderKept_eq sibs rest, List.filter_cons]

/-- Node's basename with extension agrees with the plain
strip-a-trailing-extension reading on names that contain no slash and do
not start with a dot (every name the builder can put into a leaf). -/
theorem basenameMd_eq_specStripMd (n : String)
    (h1 : strStartsWith "." n = false) (h2 : n.data.contains '/' = false) :
    basenameMd n = specStripMd n := by
  have hnoslash : ∀ c ∈ n.data.reverse, (c == '/') = false := by
    intro c hc
    apply beq_eq_false_iff_ne.mpr
    intro he
    subst he
    have : ('/') ∈ n.data := List.mem_reverse.mp hc
    rw [contains_of_mem this] at h2
    cases h2
  have e1 : n.data.reverse.dropWhile (fun c => c == '/') = n.data.reverse :=
    dropWhile_of_all_not _ _ hnoslash
  have e2 : n.data.reverse.takeWhile (fun c => !(c == '/')) = n.data.reverse :=
    takeWhile_of_all _ _ (fun c hc => by rw [hnoslash c hc]; rfl)
  have hne : (n.data == ".md".data) = false := by
    apply beq_eq_false_iff_ne.mpr
    intro he
    have : strStartsWith "." n = true := by
      unfold strStartsWith
      rw [he]
      rfl
    rw [this] at h1
    cases h1
  unfold basenameMd specStripMd
  simp only [e1, e2, List.reverse_reverse, hne, Bool.not_false, Bool.and_true]

/-- The no-empty-container test distributes over list append. -/
theorem childListOkB_append :
    ∀ (a b : List Entry), childListOkB (a ++ b) = (childListOkB a && childListOkB b)
  | [], b => by simp [childListOkB]
  | c :: r, b => by
    simp [childListOkB, childListOkB_append r b, Bool.and_assoc]

mutual
/-- Every container the builder accumulates has at least one child, and
so do all containers below it. -/
theorem buildChildren_ok :
    ∀ (es : List FSEntry) (p : String), childListOkB (buildChildren es p) = true
  | [], _ => rfl
  | e :: rest, p => by
    rw [buildChildren, childListOkB_append, buildEntry_ok e p, buildChildren_ok rest p]
    rfl
/-- The contribution of one entry satisfies the no-empty-container test. -/
theorem buildEntry_ok :
    ∀ (e : FSEntry) (p : String), childListOkB (buildEntry e p) = true
  | .file n, p => by
    rw [buildEntry]
    split
    · rfl
    · split <;> rfl
  | .dir n es, p => by
    rw [buildEntry]
    split
    · rfl
    · split
      · next hlen =>
        have hsub := buildChildren_ok es (p ++ "/" ++ n)
        cases hm : buildChildren es (p ++ "/" ++ n) with
        | nil => rw [hm] at hlen; simp at hlen
        | cons x xs =>
          rw [hm] at hsub
          simp [childListOkB, childOkB, hm, hsub]
          exact Bool.and_eq_true_iff.mp (by simpa [childListOkB] using hsub)
      · rfl
end

mutual
/-- A listing with no qualifying documents builds an empty children
list. -/
theorem buildChildren_noDocs :
    ∀ (es : List FSEntry) (p : String), noDocsList es = true → buildChildren es p = []
  | [], _, _ => rfl
  | e :: rest, p, h => by
    rw [noDocsList] at h
    rw [buildChildren, buildEntry_noDocs e p (Bool.and_eq_true_iff.mp h).1,
      buildChildren_noDocs rest p (Bool.and_eq_true_iff.mp h).2]
    rfl
/-- An entry with no qualifying documents contributes nothing. -/
theorem buildEntry_noDocs :
    ∀ (e : FSEntry) (p : String), noDocsEntry e = true → buildEntry e p = []
  | .file n, p, h => by
    rw [noDocsEntry] at h
    cases hig : ignoresTest n <;> cases hd : isDocTest n <;>
      simp_all [buildEntry]
  | .dir n es, p, h => by
    rw [noDocsEntry] at h
    cases hig : ignoresTest n
    · rw [hig] at h
      have : noDocsList es = true := by simpa using h
      rw [buildEntry]
      simp [hig, buildChildren_noDocs es (p ++ "/" ++ n) this]
    · rw [buildEntry]
      simp [hig]
end

/-! ## Claim theorems -/

/-- C1 (amended): in the folding renderer, a container's output is the
heading followed by the indented renderings of the kept children; when
the children include both a leaf named X.md and a container named X, the
leaf is removed by the filter, the container is rendered with the link
flag set, and its heading line is a markdown link whose target is the
container's own path (not the leaf's path); a container with no
same-named leaf sibling gets a false link flag and renders as a plain
non-linked heading. -/
theorem renderToMd_folding_rules
    (cs : List Entry) (X pl q : String) (ds : List Entry)
    (hX : ¬ X = "")
    (hleaf : Entry.leaf (X ++ ".md") pl ∈ cs)
    (hdir : Entry.node X q ds ∈ cs) :
    (∀ (nm pp : String) (d : Bool),
        renderToMd (Entry.node nm pp cs) d
          = nodeHead nm pp d
            ++ indentAll (jsJoin "\n"
                ((cs.filter (keptB cs)).map (fun c => renderToMd c (linkFlagB cs c)))))
    ∧ Entry.leaf (X ++ ".md") pl ∉ cs.filter (keptB cs)
    ∧ linkFlagB cs (Entry.node X q ds) = true
    ∧ renderToMd (Entry.node X q ds) true
        = leafLine X q ++ "\n" ++ indentAll (jsJoin "\n" (renderKept ds ds))
    ∧ (∀ (Y r : String) (es2 : List Entry),
        ¬ Y = "" → (leafNames cs).contains (Y ++ ".md") = false →
        linkFlagB cs (Entry.node Y r es2) = false
        ∧ renderToMd (Entry.node Y r es2) (linkFlagB cs (Entry.node Y r es2))
            = "- " ++ niceName Y ++ "\n" ++ indentAll (jsJoin "\n" (renderKept es2 es2))) := by
  have hlf : (leafNames cs).contains (X ++ ".md") = true := mem_leafNames hleaf
  have hdm : (dirMdNames cs).contains (X ++ ".md") = true := mem_dirMdNames hdir
  refine ⟨?_, ?_, ?_, ?_, ?_⟩
  · intro nm pp d
    rw [renderToMd, renderKept_eq]
  · intro hmem
    have h2 := (List.mem_filter.mp hmem).2
    rw [keptB] at h2
    simp only [Entry.nameOf, hlf, hdm] at h2
    cases h2
  · rw [linkFlagB]
    simp only [Entry.nameOf, hlf, hdm]
    rfl
  · rw [renderToMd, nodeHead]
    rw [beq_eq_false_iff_ne.mpr hX]
    rfl
  · intro Y r es2 hY hcont
    have hflag : linkFlagB cs (Entry.node Y r es2) = false := by
      rw [linkFlagB]
      simp only [Entry.nameOf, hcont, Bool.and_false]
    refine ⟨hflag, ?_⟩
    rw [hflag, renderToMd, nodeHead]
    rw [beq_eq_false_iff_ne.mpr hY]
    rfl

/-- C1 witness: the folding scenario with leaf X.md and container X. -/
theorem renderToMd_folding_rules_witness :
    Entry.leaf "X.md" "/X.md" ∉ c1cs.filter (keptB c1cs)
    ∧ linkFlagB c1cs (Entry.node "X" "/X" c1ds) = true
    ∧ renderToMd (Entry.node "X" "/X" c1ds) true
        = leafLine "X" "/X" ++ "\n" ++ indentAll (jsJoin "\n" (renderKept c1ds c1ds)) := by
  have h := renderToMd_folding_rules c1cs "X" "/X.md" "/X" c1ds (by decide)
    (List.Mem.head _) (List.Mem.tail _ (List.Mem.head _))
  exact ⟨h.2.1, h.2.2.1, h.2.2.2.1⟩

/-- C1 counterexample: in the folding scenario the container heading
links to the container's path, which lacks the markdown extension, so the
output differs from the one the claim mandates (a link to the leaf's
path). -/
theorem renderToMd_folding_link_target :
    renderToMd (Entry.node "" "" c1cs) false = "  - [X](/X)\n    - [Y](/X/Y.md)"
    ∧ ¬ renderToMd (Entry.node "" "" c1cs) false = "  - [X](/X.md)\n    - [Y](/X/Y.md)" :=
  ⟨rfl, by decide⟩

/-- C4 (amended): the current generator's builder never attaches an
empty container (every container in the accumulated children has at
least one child), and a directory whose subtree has no qualifying
documents contributes nothing at all to the children of its parent. -/
theorem buildTree_no_empty_containers :
    (∀ (es : List FSEntry) (p : String), childListOkB (buildChildren es p) = true)
    ∧ (∀ (es : List FSEntry) (p n : String) (sub : List FSEntry),
        noDocsList sub = true →
        buildChildren (FSEntry.dir n sub :: es) p = buildChildren es p) := by
  refine ⟨buildChildren_ok, ?_⟩
  intro es p n sub h
  rw [buildChildren]
  rw [buildEntry_noDocs (FSEntry.dir n sub) p ?_]
  · rfl
  · rw [noDocsEntry]
    rw [h]
    simp

/-- C4 witness: a directory holding only a non-documentation file is
dropped entirely. -/
theorem buildTree_no_empty_containers_witness :
    noDocsList [FSEntry.file "notes.txt"] = true
    ∧ buildChildren [FSEntry.dir "drafts" [FSEntry.file "notes.txt"], FSEntry.file "intro.md"] ""
        = buildChildren [FSEntry.file "intro.md"] "" :=
  ⟨by decide,
   buildTree_no_empty_containers.2 [FSEntry.file "intro.md"] "" "drafts"
     [FSEntry.file "notes.txt"] (by decide)⟩

/-- C4 counterexample: the vestigial plain builder of src/index.ts pushes
every non-ignored directory unconditionally, so a directory with no
documents is attached as an empty container. -/
theorem buildTreePlain_attaches_empty_container :
    buildTreePlain (fun q => if q == "/empty" then Except.ok true else Except.error "ENOENT")
        [FSEntry.dir "empty" []]
      = Except.ok (Entry.node "" "" [Entry.node "empty" "/empty" []])
    ∧ childListOkB [Entry.node "empty" "/empty" []] = false :=
  ⟨rfl, by decide⟩

/-- C6: the documentation-file test admits the file name amd, which does
not end with a literal dot-md suffix, because the dot in the source
regular expression is unescaped; the builder therefore turns it into a
leaf. -/
theorem isDoc_regex_unescaped_dot :
    buildTree [FSEntry.file "amd"] = Entry.node "" "" [Entry.leaf "amd" "/amd"]
    ∧ chEndsWith ".md".data "amd".data = false
    ∧ isDocTest "amd" = true :=
  ⟨rfl, by decide, by decide⟩

/-- C7: niceName returns the dash segments after the first one rejoined
with spaces exactly when the first segment coerces to a number, and the
name unchanged otherwise; with the four concrete normalizations of the
specification. -/
theorem niceName_numeric_prefix_rule :
    (∀ name : String,
      niceName name =
        if jsIsNumeric ((strSplit '-' name).headD "") then
          jsJoin " " ((strSplit '-' name).drop 1)
        else name)
    ∧ niceName "1-Guides" = "Guides"
    ∧ niceName "2-API" = "API"
    ∧ niceName "Guides" = "Guides"
    ∧ niceName "10-My-Section" = "My Section" :=
  ⟨fun _ => rfl, by decide, by decide, by decide, by decide⟩

/-- C8: a leaf whose name neither starts with a dot nor contains a slash
(every leaf the builder can produce) renders as exactly one bullet line
whose label is the name with a trailing markdown suffix stripped and then
normalized, and whose target is the path with every space replaced by the
percent encoding and nothing else altered. -/
theorem renderToMd_leaf_line_rule (n p : String) (d : Bool)
    (h1 : strStartsWith "." n = false) (h2 : n.data.contains '/' = false) :
    renderToMd (Entry.leaf n p) d
      = "- [" ++ niceName (specStripMd n) ++ "](" ++ encSpaces p ++ ")" := by
  rw [renderToMd, leafLine, basenameMd_eq_specStripMd n h1 h2]

/-- C8 witness: the leaf of the specification's path-encoding example. -/
theorem renderToMd_leaf_line_rule_witness :
    renderToMd (Entry.leaf "c.md" "/a b/c.md") false = "- [c](/a%20b/c.md)" := by
  rw [renderToMd_leaf_line_rule "c.md" "/a b/c.md" false (by decide) (by decide)]
  decide

/-- C9: both renderers are pure functions of the tree, so rendering the
same tree twice yields identical text (the source functions read the tree
and never assign to it, which the pure embedding reflects). -/
theorem render_deterministic :
    (∀ (t : Entry) (d : Bool), renderToMd t d = renderToMd t d)
    ∧ (∀ t : Entry, renderToMdPlain t = renderToMdPlain t) :=
  ⟨fun _ _ => rfl, fun _ => rfl⟩

/-- C10 (amended): the builder always returns a container node carrying
the accumulated children, even with no qualifying documents, in which
case the root is a container with an empty children list; rendering that
root yields the two-character indented empty line, not the empty
string. -/
theorem buildTree_root_is_container :
    (∀ (es : List FSEntry) (nm p : String), buildTree es nm p = Entry.node nm p (buildChildren es p))
    ∧ (∀ es : List FSEntry, noDocsList es = true →
        buildTree es = Entry.node "" "" []
        ∧ renderToMd (buildTree es) false = "  ") := by
  refine ⟨fun _ _ _ => rfl, fun es h => ?_⟩
  have hnil : buildChildren es "" = [] := buildChildren_noDocs es "" h
  constructor
  · show Entry.node "" "" (buildChildren es "") = _
    rw [hnil]
  · show renderToMd (Entry.node "" "" (buildChildren es "")) false = "  "
    rw [hnil]
    rfl

/-- C10 witness: a root with one ignored directory and one
non-documentation file builds an empty-childed container root. -/
theorem buildTree_root_is_container_witness :
    noDocsList [FSEntry.file "readme.txt", FSEntry.dir ".git" [FSEntry.file "a.md"]] = true
    ∧ buildTree [FSEntry.file "readme.txt", FSEntry.dir ".git" [FSEntry.file "a.md"]]
        = Entry.node "" "" []
    ∧ renderToMd (buildTree [FSEntry.file "readme.txt", FSEntry.dir ".git" [FSEntry.file "a.md"]]) false
        = "  " := by
  have h := buildTree_root_is_container.2
    [FSEntry.file "readme.txt", FSEntry.dir ".git" [FSEntry.file "a.md"]] (by decide)
  exact ⟨by decide, h.1, h.2⟩

/-- C10 counterexample: the sidebar text of an empty root is two spaces,
not the empty string, because the join-split-indent-join pipeline indents
the empty joined content. -/
theorem render_empty_root_two_spaces :
    renderToMd (buildTree []) false = "  "
    ∧ ¬ renderToMd (buildTree []) false = "" :=
  ⟨rfl, by decide⟩

/-- C2 (amended): method and property kinds are internal, so rendering
their page writes no file at all; a class and an interface of the same
name and members produce identical output below the heading (both are
routed through the interface-table writer and inline their members'
details); the example class page inlines the method's heading and returns
block directly below the methods table. -/
theorem class_interface_inline_symmetry :
    (∀ (anc : List ApiItem) (i : ApiInfo) (ms : List ApiItem),
        internalKinds.contains i.kind = true →
        writeApiItemPage anc (ApiItem.mk i ms) = Except.ok [])
    ∧ (writeApiItem c2anc (widgetCls [mkMethod "render" 0])).map (fun r => (r.1.drop 1, r.2))
        = (writeApiItem c2anc (widgetIface [mkMethod "render" 0])).map (fun r => (r.1.drop 1, r.2))
    ∧ writeApiItem c2anc (widgetCls [mkMethod "render" 0])
        = Except.ok ([DocNode.heading "Widget class" 1,
            DocNode.heading "Methods" 1,
            DocNode.table ["Method", "Description"]
              [[[DocNode.para [DocNode.linkTag "render()" "Widget.md#render"]], []]],
            DocNode.heading "render" 3,
            DocNode.para [DocNode.emphasis true false [DocNode.text "Returns:"]],
            DocNode.para [DocNode.codeSpan "void"]], []) := by
  refine ⟨?_, rfl, rfl⟩
  intro anc i ms h
  obtain ⟨k, dn, oi, b1, b2, b3, e1, e2, pt, ini, rt, ps, td⟩ := i
  cases k <;> first
    | rfl
    | exact Bool.noConfusion (show false = true from h)

/-- C2 witness: rendering the page of a concrete method writes no file. -/
theorem class_interface_inline_symmetry_witness :
    writeApiItemPage c2anc (mkMethod "render" 0) = Except.ok [] :=
  class_interface_inline_symmetry.1 c2anc
    { baseInfo .Method "render" with overloadIndex := 0, returnTypeText := "void" } []
    (by decide)

/-- C2 counterexample: rendering the example class produces exactly one
file, the class page itself; the method gets no separate output page, and
the whole run writes only the class page and the package page. -/
theorem class_member_no_separate_page :
    (writeApiItemPage c2anc (widgetCls [mkMethod "render" 0])).map (fun ws => ws.map Prod.fst)
      = Except.ok ["acme/Widget.md"]
    ∧ (generateFiles c2model).map (fun ws => ws.map Prod.fst)
      = Except.ok ["acme/Widget.md", "acme.md"] :=
  ⟨rfl, rfl⟩

/-- C3 (amended): an item of a method or property kind derives its
filename by appending the markdown extension, a hash and its lowercased
display name to the fold of its ancestors, with no overload suffix (the
suffix reaches only kinds handled by the default slash branch, such as
functions); in the example, the class page is the package segment
followed by the class file, both render overloads share one anchor, and
an overloaded function file does carry the underscore suffix. -/
theorem getFilename_anchor_rules :
    (∀ (h : List ApiItem) (i : ApiInfo) (ms : List ApiItem),
        (i.kind = .Method ∨ i.kind = .MethodSignature ∨ i.kind = .Property ∨
          i.kind = .PropertySignature) →
        getFilenameFor (h ++ [ApiItem.mk i ms])
          = h.foldl hierStep "" ++ ".md#" ++ toLowerJs i.displayName)
    ∧ getFilenameFor c3hier = "acme/Widget.md"
    ∧ getFilenameFor (c3hier ++ [mkMethod "render" 0]) = "acme/Widget.md#render"
    ∧ getFilenameFor (c3hier ++ [mkMethod "render" 1]) = "acme/Widget.md#render"
    ∧ getFilenameFor [mkModel [], ApiItem.mk (baseInfo .Package "acme") [], mkEntryPoint [],
        ApiItem.mk { baseInfo .Function "save" with overloadIndex := 1 } []]
        = "acme/save_1.md" := by
  refine ⟨?_, rfl, rfl, rfl, rfl⟩
  intro h i ms hk
  have hstep : hierStep (h.foldl hierStep "") (ApiItem.mk i ms)
      = h.foldl hierStep "" ++ ".md#" ++ toLowerJs i.displayName := by
    rcases hk with hk | hk | hk | hk <;>
      (rw [hierStep]; rw [show (ApiItem.mk i ms).kind = i.kind from rfl, hk]; rfl)
  have hfold : (h ++ [ApiItem.mk i ms]).foldl hierStep ""
      = h.foldl hierStep "" ++ ".md#" ++ toLowerJs i.displayName := by
    rw [List.foldl_append]
    simpa using hstep
  rw [getFilenameFor, hfold]
  have hhash : ('#') ∈ (h.foldl hierStep "" ++ ".md#" ++ toLowerJs i.displayName).data := by
    rw [String.data_append, String.data_append]
    exact List.mem_append_left _ (List.mem_append_right _ (by decide))
  rw [contains_of_mem hhash]
  rfl

/-- C3 witness: the anchor rule applied to a concrete property. -/
theorem getFilename_anchor_rules_witness :
    getFilenameFor (c3hier ++ [ApiItem.mk (baseInfo .Property "size") []])
      = c3hier.foldl hierStep "" ++ ".md#" ++ toLowerJs "size" :=
  getFilename_anchor_rules.1 c3hier (baseInfo .Property "size") []
    (Or.inr (Or.inr (Or.inl rfl)))

/-- C3 counterexample: the second render overload's anchor carries no
underscore suffix anywhere and collides with the first overload's
anchor, so overloaded methods are not disambiguated as the claim
states. -/
theorem method_overload_anchor_collision :
    getFilenameFor (c3hier ++ [mkMethod "render" 1]) = "acme/Widget.md#render"
    ∧ strHasSub "_1" (getFilenameFor (c3hier ++ [mkMethod "render" 1])) = false
    ∧ getFilenameFor (c3hier ++ [mkMethod "render" 1])
        = getFilenameFor (c3hier ++ [mkMethod "render" 0]) :=
  ⟨rfl, by decide, rfl⟩

/-- C5 (amended): rendering an item whose kind is outside the supported
set fails with the unsupported-kind error naming the kind, but the member
loops of the package/namespace and interface/class table writers skip
members of unhandled kinds silently, so such members are omitted from the
output without failing the run. -/
theorem unsupported_kind_dispatch :
    (∀ (anc : List ApiItem) (i : ApiInfo) (ms : List ApiItem),
        supportedKinds.contains i.kind = false →
        writeApiItem anc (ApiItem.mk i ms)
          = Except.error ("Unsupported API item kind: " ++ kindName i.kind))
    ∧ (∀ (anc : List ApiItem) (container : ApiItem) (mi : ApiInfo)
        (mms : List ApiItem) (rest : List ApiItem),
        ifaceMemberKinds.contains mi.kind = false →
        ifaceLoop anc container (ApiItem.mk mi mms :: rest) = ifaceLoop anc container rest)
    ∧ (∀ (contHier memberAnc : List ApiItem) (mi : ApiInfo)
        (mms : List ApiItem) (rest : List ApiItem),
        pkgMemberKinds.contains mi.kind = false →
        pkgLoop contHier memberAnc (ApiItem.mk mi mms :: rest)
          = pkgLoop contHier memberAnc rest) := by
  refine ⟨?_, ?_, ?_⟩
  · intro anc i ms h
    obtain ⟨k, dn, oi, b1, b2, b3, e1, e2, pt, ini, rt, ps, td⟩ := i
    cases k <;> first
      | rfl
      | exact Bool.noConfusion (show true = false from h)
  · intro anc container mi mms rest h
    obtain ⟨k, dn, oi, b1, b2, b3, e1, e2, pt, ini, rt, ps, td⟩ := mi
    cases k <;> first
      | rfl
      | exact Bool.noConfusion (show true = false from h)
  · intro contHier memberAnc mi mms rest h
    obtain ⟨k, dn, oi, b1, b2, b3, e1, e2, pt, ini, rt, ps, td⟩ := mi
    cases k <;> first
      | rfl
      | exact Bool.noConfusion (show true = false from h)

/-- C5 witness: an index-signature item is rejected with the
unsupported-kind error naming its kind. -/
theorem unsupported_kind_dispatch_witness :
    writeApiItem [] (ApiItem.mk (baseInfo .IndexSignature "idx") [])
      = Except.error "Unsupported API item kind: IndexSignature" :=
  unsupported_kind_dispatch.1 [] (baseInfo .IndexSignature "idx") [] (by decide)

/-- C5 counterexample: a run over a model whose class holds a constructor
(a kind outside the supported set) succeeds and simply omits the
constructor, while rendering the constructor directly fails with the
unsupported-kind error; so an unrecognized kind can be silently skipped
without failing the run. -/
theorem unsupported_member_kind_silently_skipped :
    (generateFiles c5model).map (fun ws => ws.map Prod.fst)
      = Except.ok ["acme/Widget.md", "acme.md"]
    ∧ writeApiItem c5anc ctorItem = Except.error "Unsupported API item kind: Constructor" :=
  ⟨rfl, rfl⟩

end DocsifyTools
